import Mathlib

/-!
Shallow embedding of the port-forwarding engine in `t.py` (byJoey/zhuanfa):
the `SecurityManager` abuse-detection state machine, the `PersistenceManager`
change-detection / save / load / backup-cleanup logic, and the
`PortForwarder` rule registry with its lifecycle operations.

Timestamps are modelled as `Int` (seconds).  Python dictionaries are
modelled either as total functions with a default (for the per-IP maps of
`SecurityManager`) or as association lists in insertion order (for the
rule registry).  The MD5 content hash of `PersistenceManager._calculate_hash`
is modelled as the serialized value itself, i.e. as a perfect fingerprint.
-/

/-! ## SecurityManager (t.py lines 348-439) -/

/-- State of `SecurityManager`: `failed_attempts` maps an IP to its list of
failure timestamps, `blocked_ips` maps an IP to its block-expiry time,
`scanner_detection` and `honeypot_hits` map an IP to `(path, time)` entries.
A key that is absent in Python is modelled by the default value
(`[]` / `none`). -/
structure SecurityState where
  failed_attempts : String → List Int
  blocked_ips : String → Option Int
  scanner_detection : String → List (String × Int)
  honeypot_hits : String → List (String × Int)

/-- `SecurityManager.__init__`: `max_attempts = 5`. -/
def max_attempts : Nat := 5

/-- `SecurityManager.__init__`: `block_time = 300` seconds. -/
def block_time : Int := 300

/-- Fresh `SecurityManager` state: all maps empty. -/
def emptySecurityState : SecurityState :=
  { failed_attempts := fun _ => []
    blocked_ips := fun _ => none
    scanner_detection := fun _ => []
    honeypot_hits := fun _ => [] }

/-- `SecurityManager.is_ip_blocked` (t.py 367-374): returns whether `ip` is
currently blocked and the state after the lookup (an expired entry is
deleted as a side effect). -/
def is_ip_blocked (s : SecurityState) (ip : String) (now : Int) :
    Bool × SecurityState :=
  match s.blocked_ips ip with
  | some expiry =>
      if now < expiry then (true, s)
      else (false, { s with
        blocked_ips := fun x => if x = ip then none else s.blocked_ips x })
  | none => (false, s)

/-- `SecurityManager.record_failed_attempt` (t.py 376-393): prune entries
older than one hour, append the current time, and block for `block_time`
seconds when the surviving count reaches `max_attempts`. -/
def record_failed_attempt (s : SecurityState) (ip : String) (now : Int) :
    SecurityState :=
  let pruned := (s.failed_attempts ip).filter (fun t => now - t < 3600)
  let lst := pruned ++ [now]
  let s1 := { s with
    failed_attempts := fun x => if x = ip then lst else s.failed_attempts x }
  if max_attempts ≤ lst.length then
    { s1 with
      blocked_ips := fun x =>
        if x = ip then some (now + block_time) else s1.blocked_ips x }
  else s1

/-- `SecurityManager.record_scanner_behavior` (t.py 395-419): append a
`(path, now)` entry, prune entries older than 30 minutes, and when 3 or
more entries survive, block the IP for 3600 seconds and return `true`. -/
def record_scanner_behavior (s : SecurityState) (ip path : String) (now : Int) :
    Bool × SecurityState :=
  let appended := s.scanner_detection ip ++ [(path, now)]
  let pruned := appended.filter (fun e => now - e.2 < 1800)
  let s1 := { s with
    scanner_detection := fun x => if x = ip then pruned else s.scanner_detection x }
  if 3 ≤ pruned.length then
    (true, { s1 with
      blocked_ips := fun x =>
        if x = ip then some (now + 3600) else s1.blocked_ips x })
  else (false, s1)

/-- `SecurityManager.record_honeypot_hit` (t.py 421-434): append a
`(path, now)` entry (no pruning) and unconditionally block the IP for
7200 seconds. -/
def record_honeypot_hit (s : SecurityState) (ip path : String) (now : Int) :
    SecurityState :=
  let s1 := { s with
    honeypot_hits := fun x =>
      if x = ip then s.honeypot_hits ip ++ [(path, now)] else s.honeypot_hits x }
  { s1 with
    blocked_ips := fun x =>
      if x = ip then some (now + 7200) else s1.blocked_ips x }

/-- `SecurityManager.clear_failed_attempts` (t.py 436-439). -/
def clear_failed_attempts (s : SecurityState) (ip : String) : SecurityState :=
  { s with failed_attempts := fun x => if x = ip then [] else s.failed_attempts x }

/-! ### Helper lemmas for the abuse-detection theorems -/

theorem record_failed_attempt_failed (s : SecurityState) (ip : String) (now : Int) :
    (record_failed_attempt s ip now).failed_attempts ip =
      (s.failed_attempts ip).filter (fun t => now - t < 3600) ++ [now] := by
  unfold record_failed_attempt
  dsimp only
  split <;> simp

theorem record_failed_attempt_blocked_of_lt (s : SecurityState) (ip : String)
    (now : Int)
    (h : ((s.failed_attempts ip).filter (fun t => now - t < 3600) ++ [now]).length
          < max_attempts) :
    (record_failed_attempt s ip now).blocked_ips = s.blocked_ips := by
  unfold record_failed_attempt
  dsimp only
  rw [if_neg (by omega)]

theorem record_failed_attempt_blocked_of_ge (s : SecurityState) (ip : String)
    (now : Int)
    (h : max_attempts ≤
      ((s.failed_attempts ip).filter (fun t => now - t < 3600) ++ [now]).length) :
    (record_failed_attempt s ip now).blocked_ips ip = some (now + block_time) := by
  unfold record_failed_attempt
  dsimp only
  rw [if_pos (by exact h)]
  simp

/-! ### C4 and C8 -/

/-- C4: five `record_failed_attempt` calls for `ip` whose timestamps all lie
within one hour cause `is_ip_blocked ip` to return `true`, with a block
horizon of 300 seconds (`blocked_ips ip = t5 + 300`); once the expiry has
passed, `is_ip_blocked ip` returns `false` and removes the entry from
`blocked_ips` as a side effect of the lookup. -/
theorem five_failed_attempts_block_then_expire
    (s : SecurityState) (ip : String) (t1 t2 t3 t4 t5 tlate : Int)
    (h0 : s.failed_attempts ip = [])
    (h12 : t1 ≤ t2) (h23 : t2 ≤ t3) (h34 : t3 ≤ t4) (h45 : t4 ≤ t5)
    (hwin : t5 - t1 < 3600) (hlate : t5 + 300 ≤ tlate) :
    (record_failed_attempt (record_failed_attempt (record_failed_attempt
        (record_failed_attempt (record_failed_attempt s ip t1) ip t2) ip t3)
        ip t4) ip t5).blocked_ips ip = some (t5 + 300)
    ∧ (is_ip_blocked (record_failed_attempt (record_failed_attempt
        (record_failed_attempt (record_failed_attempt
        (record_failed_attempt s ip t1) ip t2) ip t3) ip t4) ip t5) ip t5).1 = true
    ∧ (is_ip_blocked (record_failed_attempt (record_failed_attempt
        (record_failed_attempt (record_failed_attempt
        (record_failed_attempt s ip t1) ip t2) ip t3) ip t4) ip t5) ip tlate).1 = false
    ∧ (is_ip_blocked (record_failed_attempt (record_failed_attempt
        (record_failed_attempt (record_failed_attempt
        (record_failed_attempt s ip t1) ip t2) ip t3) ip t4) ip t5) ip tlate).2.blocked_ips
        ip = none := by
  have c21 : t2 - t1 < 3600 := by omega
  have c31 : t3 - t1 < 3600 := by omega
  have c32 : t3 - t2 < 3600 := by omega
  have c41 : t4 - t1 < 3600 := by omega
  have c42 : t4 - t2 < 3600 := by omega
  have c43 : t4 - t3 < 3600 := by omega
  have c51 : t5 - t1 < 3600 := by omega
  have c52 : t5 - t2 < 3600 := by omega
  have c53 : t5 - t3 < 3600 := by omega
  have c54 : t5 - t4 < 3600 := by omega
  have l1 : (record_failed_attempt s ip t1).failed_attempts ip = [t1] := by
    rw [record_failed_attempt_failed, h0]; simp
  have l2 : (record_failed_attempt (record_failed_attempt s ip t1) ip t2).failed_attempts ip
      = [t1, t2] := by
    rw [record_failed_attempt_failed, l1]
    simp [List.filter_cons, c21]
  have l3 : (record_failed_attempt (record_failed_attempt
      (record_failed_attempt s ip t1) ip t2) ip t3).failed_attempts ip = [t1, t2, t3] := by
    rw [record_failed_attempt_failed, l2]
    simp [List.filter_cons, c31, c32]
  have l4 : (record_failed_attempt (record_failed_attempt (record_failed_attempt
      (record_failed_attempt s ip t1) ip t2) ip t3) ip t4).failed_attempts ip
      = [t1, t2, t3, t4] := by
    rw [record_failed_attempt_failed, l3]
    simp [List.filter_cons, c41, c42, c43]
  have b5 : (record_failed_attempt (record_failed_attempt (record_failed_attempt
      (record_failed_attempt (record_failed_attempt s ip t1) ip t2) ip t3)
      ip t4) ip t5).blocked_ips ip = some (t5 + 300) := by
    have h := record_failed_attempt_blocked_of_ge
      (record_failed_attempt (record_failed_attempt (record_failed_attempt
        (record_failed_attempt s ip t1) ip t2) ip t3) ip t4) ip t5 (by
          rw [l4]
          simp [List.filter_cons, c51, c52, c53, c54, max_attempts])
    simpa [block_time] using h
  refine ⟨b5, ?_, ?_, ?_⟩
  · simp only [is_ip_blocked, b5]
    rw [if_pos (by omega)]
  · simp only [is_ip_blocked, b5]
    rw [if_neg (by omega)]
  · simp only [is_ip_blocked, b5]
    rw [if_neg (by omega)]
    simp

/-- Witness for C4 at concrete inputs: five failures at times 0,100,200,300,400
block `"9.9.9.9"` until 700; a lookup at 700 reports unblocked and evicts the
entry. -/
theorem five_failed_attempts_block_then_expire_witness :
    (record_failed_attempt (record_failed_attempt (record_failed_attempt
        (record_failed_attempt (record_failed_attempt emptySecurityState
        "9.9.9.9" 0) "9.9.9.9" 100) "9.9.9.9" 200)
        "9.9.9.9" 300) "9.9.9.9" 400).blocked_ips "9.9.9.9" = some (400 + 300)
    ∧ (is_ip_blocked (record_failed_attempt (record_failed_attempt
        (record_failed_attempt (record_failed_attempt
        (record_failed_attempt emptySecurityState "9.9.9.9" 0) "9.9.9.9" 100) "9.9.9.9" 200)
        "9.9.9.9" 300) "9.9.9.9" 400) "9.9.9.9" 400).1 = true
    ∧ (is_ip_blocked (record_failed_attempt (record_failed_attempt
        (record_failed_attempt (record_failed_attempt
        (record_failed_attempt emptySecurityState "9.9.9.9" 0) "9.9.9.9" 100) "9.9.9.9" 200)
        "9.9.9.9" 300) "9.9.9.9" 400) "9.9.9.9" 700).1 = false
    ∧ (is_ip_blocked (record_failed_attempt (record_failed_attempt
        (record_failed_attempt (record_failed_attempt
        (record_failed_attempt emptySecurityState "9.9.9.9" 0) "9.9.9.9" 100) "9.9.9.9" 200)
        "9.9.9.9" 300) "9.9.9.9" 400) "9.9.9.9" 700).2.blocked_ips "9.9.9.9" = none :=
  five_failed_attempts_block_then_expire emptySecurityState "9.9.9.9"
    0 100 200 300 400 700 rfl (by decide) (by decide) (by decide) (by decide)
    (by decide) (by decide)

/-- C8: a single `record_honeypot_hit` appends an entry (the recording itself
never prunes `honeypot_hits`) and unconditionally blocks the IP so that
`is_ip_blocked` is immediately true, with a 7200-second horizon; the
threshold-based scanner check of `record_scanner_behavior`, when it fires,
blocks only until `now + 3600`, a strictly shorter horizon. -/
theorem honeypot_hit_blocks_immediately (s : SecurityState) (ip path : String)
    (now : Int) :
    (record_honeypot_hit s ip path now).honeypot_hits ip
        = s.honeypot_hits ip ++ [(path, now)]
    ∧ (record_honeypot_hit s ip path now).blocked_ips ip = some (now + 7200)
    ∧ (is_ip_blocked (record_honeypot_hit s ip path now) ip now).1 = true
    ∧ (record_scanner_behavior
        { emptySecurityState with
          scanner_detection := fun _ => [("/a", now), ("/b", now)] }
        ip path now).2.blocked_ips ip = some (now + 3600)
    ∧ now + 3600 < now + 7200 := by
  have hb : (record_honeypot_hit s ip path now).blocked_ips ip = some (now + 7200) := by
    simp [record_honeypot_hit]
  refine ⟨by simp [record_honeypot_hit], hb, ?_, ?_, by omega⟩
  · simp only [is_ip_blocked, hb]
    rw [if_pos (by omega)]
  · simp [record_scanner_behavior, List.filter_cons]

/-! ## Rule records and PersistenceManager (t.py lines 53-343) -/

/-- Rule status strings: `'starting'`, `'running'`, `'stopped'`, `'error'`. -/
inductive FStatus where
  | starting
  | running
  | stopped
  | error
deriving DecidableEq, Repr

/-- A forwarding-rule record (`forward_info` dictionary in `t.py`), with the
fields that `save_forwards` / `get_serializable_forwards` persist.  The
runtime-only `thread` / `server` / `socket` handles are not modelled. -/
structure ForwardInfo where
  id : String
  protocol : String
  local_port : Nat
  remote_host : String
  remote_port : Nat
  status : FStatus
  created_time : String
  error : Option String
deriving DecidableEq, Repr

/-- `PortForwarder.active_forwards`: a dictionary from forward id to record,
modelled as an association list in insertion order. -/
abbrev Forwards := List (String × ForwardInfo)

/-- The serializable copy built inside `save_forwards` (t.py 124-136): the
same fields with `status` forced to `'stopped'`. -/
def serializable_forwards (forwards : Forwards) : Forwards :=
  forwards.map (fun e => (e.1, { e.2 with status := FStatus.stopped }))

/-- `PersistenceManager._calculate_hash` (t.py 77-84), modelled as the
serialized value itself: MD5 over the canonical JSON dump is treated as a
perfect fingerprint, so two values share a hash exactly when they are
equal. -/
def _calculate_hash (forwards : Forwards) : Forwards := forwards

/-- The `PersistenceManager` state relevant to the `forwards` record kind:
the contents of `data/forwards.json` (if the file exists), the
change-detection hash `last_forwards_hash`, and the forwards backup files
accumulated in `data/backups`. -/
structure PersistenceState where
  forwards_file : Option Forwards
  last_forwards_hash : Option Forwards
  forwards_backups : List Forwards
deriving DecidableEq, Repr

/-- `PersistenceManager.__init__` (t.py 56-75): no file, no hash, no backups. -/
def initPersistenceState : PersistenceState :=
  { forwards_file := none, last_forwards_hash := none, forwards_backups := [] }

/-- `PersistenceManager._check_forwards_changed` (t.py 86-92): compares the
current hash with `last_forwards_hash` and, when they differ, OVERWRITES the
stored hash before returning `true`. -/
def _check_forwards_changed (p : PersistenceState) (forwards : Forwards) :
    Bool × PersistenceState :=
  let current_hash := _calculate_hash forwards
  if p.last_forwards_hash ≠ some current_hash then
    (true, { p with last_forwards_hash := some current_hash })
  else
    (false, p)

/-- `PersistenceManager.save_forwards` (t.py 116-153): skip (returning `True`)
when `_check_forwards_changed` reports no change; otherwise rotate the
existing file into the backup directory and write the serializable copy.
The middle component records whether a filesystem write was performed. -/
def save_forwards (p : PersistenceState) (forwards : Forwards) :
    Bool × Bool × PersistenceState :=
  match _check_forwards_changed p forwards with
  | (false, p1) => (true, false, p1)
  | (true, p1) =>
      let ser := serializable_forwards forwards
      let p2 :=
        match p1.forwards_file with
        | some old => { p1 with forwards_backups := p1.forwards_backups ++ [old] }
        | none => p1
      (true, true, { p2 with forwards_file := some ser })

/-- `PersistenceManager.load_forwards` (t.py 155-173): empty result when the
file does not exist; otherwise the file contents, seeding
`last_forwards_hash` from them. -/
def load_forwards (p : PersistenceState) : Forwards × PersistenceState :=
  match p.forwards_file with
  | none => ([], p)
  | some forwards =>
      (forwards, { p with last_forwards_hash := some (_calculate_hash forwards) })

/-! ### C2 -/

/-- A rule record in `running` state, used as a concrete counterexample. -/
def runningRule : ForwardInfo :=
  { id := "a", protocol := "TCP", local_port := 8080, remote_host := "1.2.3.4",
    remote_port := 80, status := FStatus.running, created_time := "2024-01-01",
    error := none }

/-- C2 counterexample: saving a registry holding one `running` rule and
loading it back does not return a value equal to the input in all persisted
fields — the loaded rule's `status` is `stopped`, not `running`, because
`save_forwards` forces `status` to `'stopped'` on disk. -/
theorem save_load_changes_running_status :
    (load_forwards (save_forwards initPersistenceState [("a", runningRule)]).2.2).1
      ≠ [("a", runningRule)]
    ∧ ((load_forwards (save_forwards initPersistenceState
        [("a", runningRule)]).2.2).1.map (fun e => e.2.status)) = [FStatus.stopped] := by
  constructor
  · decide
  · decide

theorem save_forwards_of_hash_eq (p : PersistenceState) (v : Forwards)
    (h : p.last_forwards_hash = some (_calculate_hash v)) :
    save_forwards p v = (true, false, p) := by
  unfold save_forwards _check_forwards_changed
  rw [if_neg (by simp [h])]

theorem save_forwards_of_hash_ne (p : PersistenceState) (v : Forwards)
    (h : p.last_forwards_hash ≠ some (_calculate_hash v)) :
    save_forwards p v = (true, true,
      { forwards_file := some (serializable_forwards v)
        last_forwards_hash := some (_calculate_hash v)
        forwards_backups := p.forwards_backups ++
          (match p.forwards_file with | some old => [old] | none => []) }) := by
  unfold save_forwards _check_forwards_changed
  rw [if_pos h]
  cases hfile : p.forwards_file <;> simp

/-- C2 amended: after a `save_forwards` that actually writes, `load_forwards`
returns records equal to the input in the persisted fields `id`, `protocol`,
`local_port`, `remote_host`, `remote_port`, `created_time` and `error`, while
`status` always loads as `stopped`; and a second `save_forwards` with the
value unchanged since that save skips the filesystem write (middle component
`false`), returns success, and leaves the persistence state untouched. -/
theorem save_load_roundtrip_except_status (p : PersistenceState) (v : Forwards)
    (hwrote : (save_forwards p v).2.1 = true) :
    List.Forall₂ (fun a b => a.1 = b.1 ∧ a.2.id = b.2.id
        ∧ a.2.protocol = b.2.protocol ∧ a.2.local_port = b.2.local_port
        ∧ a.2.remote_host = b.2.remote_host ∧ a.2.remote_port = b.2.remote_port
        ∧ a.2.created_time = b.2.created_time ∧ a.2.error = b.2.error
        ∧ a.2.status = FStatus.stopped)
      (load_forwards (save_forwards p v).2.2).1 v
    ∧ save_forwards (save_forwards p v).2.2 v
        = (true, false, (save_forwards p v).2.2) := by
  have hfa : ∀ w : Forwards, List.Forall₂ (fun a b => a.1 = b.1 ∧ a.2.id = b.2.id
      ∧ a.2.protocol = b.2.protocol ∧ a.2.local_port = b.2.local_port
      ∧ a.2.remote_host = b.2.remote_host ∧ a.2.remote_port = b.2.remote_port
      ∧ a.2.created_time = b.2.created_time ∧ a.2.error = b.2.error
      ∧ a.2.status = FStatus.stopped) (serializable_forwards w) w := by
    intro w
    induction w with
    | nil => exact List.Forall₂.nil
    | cons e rest ih =>
        exact List.Forall₂.cons (by simp [serializable_forwards]) ih
  by_cases hch : p.last_forwards_hash = some (_calculate_hash v)
  · rw [save_forwards_of_hash_eq p v hch] at hwrote
    simp at hwrote
  · rw [save_forwards_of_hash_ne p v hch]
    constructor
    · simpa [load_forwards] using hfa v
    · exact save_forwards_of_hash_eq _ v rfl

/-- Witness for C2 (amended) at a concrete input: one `running` rule saved
from the initial persistence state. -/
theorem save_load_roundtrip_except_status_witness :
    List.Forall₂ (fun a b => a.1 = b.1 ∧ a.2.id = b.2.id
        ∧ a.2.protocol = b.2.protocol ∧ a.2.local_port = b.2.local_port
        ∧ a.2.remote_host = b.2.remote_host ∧ a.2.remote_port = b.2.remote_port
        ∧ a.2.created_time = b.2.created_time ∧ a.2.error = b.2.error
        ∧ a.2.status = FStatus.stopped)
      (load_forwards (save_forwards initPersistenceState
        [("a", runningRule)]).2.2).1 [("a", runningRule)]
    ∧ save_forwards (save_forwards initPersistenceState [("a", runningRule)]).2.2
        [("a", runningRule)]
        = (true, false, (save_forwards initPersistenceState [("a", runningRule)]).2.2) :=
  save_load_roundtrip_except_status initPersistenceState [("a", runningRule)] (by decide)

/-! ### C9 -/

/-- A persistence state whose disk file holds an empty registry whose hash is
seeded, as after saving an empty registry. -/
def emptySavedPersistenceState : PersistenceState :=
  { forwards_file := some [], last_forwards_hash := some [],
    forwards_backups := [] }

/-- C9: `_check_forwards_changed` is state-mutating — when the content hash
of `v` differs from the stored hash (as when the read-only changes-status
endpoint `api_check_changes` invokes it), it returns `true` AND overwrites
`last_forwards_hash`, leaving the file untouched; an immediately following
`save_forwards` with the same `v` then skips the filesystem write (middle
component `false`) and returns success, even though `v` was never written
to disk. -/
theorem check_changes_overwrites_hash_and_save_skips
    (p : PersistenceState) (v : Forwards)
    (h : p.last_forwards_hash ≠ some (_calculate_hash v)) :
    (_check_forwards_changed p v).1 = true
    ∧ (_check_forwards_changed p v).2.last_forwards_hash = some (_calculate_hash v)
    ∧ (_check_forwards_changed p v).2.forwards_file = p.forwards_file
    ∧ save_forwards (_check_forwards_changed p v).2 v
        = (true, false, (_check_forwards_changed p v).2) := by
  have hc : _check_forwards_changed p v
      = (true, { p with last_forwards_hash := some (_calculate_hash v) }) := by
    unfold _check_forwards_changed
    rw [if_pos h]
  rw [hc]
  exact ⟨rfl, rfl, rfl, save_forwards_of_hash_eq _ v rfl⟩

/-- Witness for C9 at a concrete input: the persistence state holds an empty
registry on disk; the change check for a one-rule registry flips the hash,
and the following save skips the write while the disk still holds the empty
registry. -/
theorem check_changes_overwrites_hash_and_save_skips_witness :
    (_check_forwards_changed emptySavedPersistenceState [("a", runningRule)]).1 = true
    ∧ (_check_forwards_changed emptySavedPersistenceState
          [("a", runningRule)]).2.last_forwards_hash
        = some (_calculate_hash [("a", runningRule)])
    ∧ (_check_forwards_changed emptySavedPersistenceState
          [("a", runningRule)]).2.forwards_file
        = emptySavedPersistenceState.forwards_file
    ∧ save_forwards (_check_forwards_changed emptySavedPersistenceState
          [("a", runningRule)]).2 [("a", runningRule)]
        = (true, false, (_check_forwards_changed emptySavedPersistenceState
            [("a", runningRule)]).2) :=
  check_changes_overwrites_hash_and_save_skips
    emptySavedPersistenceState [("a", runningRule)] (by decide)

/-! ## Backup cleanup (t.py lines 331-343) -/

/-- A backup file of one record kind in `data/backups`, identified by its
name and carrying its filesystem modification time `st_mtime`. -/
structure BackupFile where
  name : String
  mtime : Nat
deriving DecidableEq, Repr

/-- `backup_files.sort(key=lambda x: x.stat().st_mtime, reverse=True)`
(t.py 337): sort by modification time, most recent first. -/
def sortByMtimeDesc (files : List BackupFile) : List BackupFile :=
  files.insertionSort (fun a b => b.mtime ≤ a.mtime)

instance : IsTotal BackupFile (fun a b => b.mtime ≤ a.mtime) :=
  ⟨fun a b => Nat.le_total b.mtime a.mtime⟩

instance : IsTrans BackupFile (fun a b => b.mtime ≤ a.mtime) :=
  ⟨fun _ _ _ hab hbc => Nat.le_trans hbc hab⟩

/-- `PersistenceManager.cleanup_old_backups` (t.py 331-343) for one record
kind: the files that remain after deleting `backup_files[3:]` of the list
sorted by modification time, newest first.  Note that the loop slices with
the literal `3`, not with the `max_backups` parameter. -/
def cleanup_old_backups (max_backups : Nat) (files : List BackupFile) :
    List BackupFile :=
  let backup_files := sortByMtimeDesc files
  let _ := max_backups
  backup_files.take 3

/-! ### C6 -/

/-- C6 counterexample: with `max_per_kind = 1` and four backups, the claim
says one file remains, but `cleanup_old_backups` keeps three — the
`max_backups` parameter is ignored (the source slices `backup_files[3:]`
with a literal `3`).  With the default `max_per_kind = 3` the particular
case of the claim does hold: the three most recent files remain. -/
theorem cleanup_old_backups_ignores_max :
    (cleanup_old_backups 1 [⟨"b1", 1⟩, ⟨"b2", 2⟩, ⟨"b3", 3⟩, ⟨"b4", 4⟩]).length = 3
    ∧ ¬ (cleanup_old_backups 1
        [⟨"b1", 1⟩, ⟨"b2", 2⟩, ⟨"b3", 3⟩, ⟨"b4", 4⟩]).length = 1
    ∧ cleanup_old_backups 3 [⟨"b1", 1⟩, ⟨"b2", 2⟩, ⟨"b3", 3⟩, ⟨"b4", 4⟩]
        = [⟨"b4", 4⟩, ⟨"b3", 3⟩, ⟨"b2", 2⟩] := by
  decide

/-- C6 amended: `cleanup_old_backups` keeps, for each kind, the 3
most-recently-modified backup files regardless of the `max_per_kind`
argument: the result does not depend on `max_backups`, it has
`min 3 N` elements drawn from the input, and every kept file is at least as
recent as every deleted one; in particular, after more than 3 saves with
changing content and cleanup with the default `max_per_kind = 3`, exactly 3
backups remain, the 3 most recent by modification time. -/
theorem cleanup_keeps_three_most_recent (max_backups : Nat)
    (files : List BackupFile) :
    cleanup_old_backups max_backups files = cleanup_old_backups 3 files
    ∧ (cleanup_old_backups max_backups files).length = min 3 files.length
    ∧ (∀ b ∈ cleanup_old_backups max_backups files, b ∈ files)
    ∧ (∀ b ∈ cleanup_old_backups max_backups files, ∀ c ∈ files,
        c ∉ cleanup_old_backups max_backups files → c.mtime ≤ b.mtime) := by
  have hperm : (sortByMtimeDesc files).Perm files :=
    List.perm_insertionSort _ files
  have hsorted : (sortByMtimeDesc files).Pairwise (fun a b => b.mtime ≤ a.mtime) :=
    List.sorted_insertionSort _ files
  refine ⟨rfl, ?_, ?_, ?_⟩
  · simp only [cleanup_old_backups, List.length_take, hperm.length_eq]
  · intro b hb
    exact hperm.mem_iff.mp (List.mem_of_mem_take hb)
  · intro b hb c hc hcn
    have hcsort : c ∈ sortByMtimeDesc files := hperm.mem_iff.mpr hc
    have hsplit : (sortByMtimeDesc files).take 3 ++ (sortByMtimeDesc files).drop 3
        = sortByMtimeDesc files := List.take_append_drop 3 _
    have hcdrop : c ∈ (sortByMtimeDesc files).drop 3 := by
      rcases List.mem_append.mp (hsplit ▸ hcsort) with h | h
      · exact absurd h hcn
      · exact h
    have hpw := List.pairwise_append.mp (hsplit ▸ hsorted)
    exact hpw.2.2 b hb c hcdrop

/-- Witness for C6 (amended) at a concrete input: with `max_per_kind = 1`
and four backup files, the cleanup result equals the default-parameter
result and keeps `min 3 4 = 3` files. -/
theorem cleanup_keeps_three_most_recent_witness :
    cleanup_old_backups 1 [⟨"b1", 1⟩, ⟨"b2", 2⟩, ⟨"b3", 3⟩, ⟨"b4", 4⟩]
      = cleanup_old_backups 3 [⟨"b1", 1⟩, ⟨"b2", 2⟩, ⟨"b3", 3⟩, ⟨"b4", 4⟩]
    ∧ (cleanup_old_backups 1 [⟨"b1", 1⟩, ⟨"b2", 2⟩, ⟨"b3", 3⟩, ⟨"b4", 4⟩]).length
      = min 3 [⟨"b1", 1⟩, (⟨"b2", 2⟩ : BackupFile), ⟨"b3", 3⟩, ⟨"b4", 4⟩].length :=
  ⟨(cleanup_keeps_three_most_recent 1 [⟨"b1", 1⟩, ⟨"b2", 2⟩, ⟨"b3", 3⟩, ⟨"b4", 4⟩]).1,
   (cleanup_keeps_three_most_recent 1 [⟨"b1", 1⟩, ⟨"b2", 2⟩, ⟨"b3", 3⟩, ⟨"b4", 4⟩]).2.1⟩

/-! ## PortForwarder (t.py lines 441-745) -/

/-- `PortForwarder.stats`: the process-wide traffic counters.  The counters
are Python integers, so they are modelled as `Int` (they can in fact go
negative, see the C3 theorem). -/
structure Stats where
  total_connections : Int
  active_connections : Int
  bytes_transferred : Int
  start_time : Int
deriving DecidableEq, Repr

/-- `PortForwarder.copy_data` (t.py 573-584): repeatedly read a chunk of at
most 8 KiB and write it through, adding each chunk's length to
`bytes_transferred`.  One direction's traffic is abstracted as the list of
chunk sizes read before EOF or a read error ends the copy. -/
def copy_data (stats : Stats) (chunks : List Nat) : Stats :=
  chunks.foldl
    (fun s n => { s with bytes_transferred := s.bytes_transferred + Int.ofNat n })
    stats

/-- `PortForwarder.handle_tcp_client` (t.py 547-571).  `connect_result` is
`some (c2r, r2c)` when `asyncio.open_connection` to the remote succeeds,
with the chunk sizes copied client-to-remote and remote-to-client, and
`none` when it raises.  On success the counters are incremented and both
copy directions run; either way the `finally` block decrements
`active_connections` and closes the inbound writer. -/
def handle_tcp_client (stats : Stats)
    (connect_result : Option (List Nat × List Nat)) : Stats :=
  match connect_result with
  | some (c2r, r2c) =>
      let s1 := { stats with total_connections := stats.total_connections + 1 }
      let s2 := { s1 with active_connections := s1.active_connections + 1 }
      let s3 := copy_data s2 c2r
      let s4 := copy_data s3 r2c
      { s4 with active_connections := s4.active_connections - 1 }
  | none =>
      { stats with active_connections := stats.active_connections - 1 }

/-- Python `str.upper()` as applied to the protocol strings: uppercase the
string character by character. -/
def pyUpper (s : String) : String := String.mk (s.data.map Char.toUpper)

/-- Dictionary assignment `d[k] = v` on the association-list model:
overwrite an existing binding in place, otherwise append. -/
def dictSet (reg : Forwards) (k : String) (v : ForwardInfo) : Forwards :=
  if (reg.find? (fun e => e.1 == k)).isSome then
    reg.map (fun e => if e.1 == k then (k, v) else e)
  else
    reg ++ [(k, v)]

/-- How the data-plane worker spawned by `start_forward` interleaves with
the caller: `bind_failure` is the message of the bind/listen exception
caught in `tcp_forward` (t.py 541-545) or the worker thread (t.py 654-657)
if one occurs, and `reported_early` tells whether the worker recorded the
failure before `start_forward` finished its `time.sleep(0.1)` and executed
`forward_info['status'] = 'running'` (t.py 669-671). -/
structure WorkerSchedule where
  bind_failure : Option String
  reported_early : Bool
deriving DecidableEq, Repr

/-- `PortForwarder.start_forward` (t.py 625-688): insert a record in
`starting` state, spawn the worker, sleep 0.1 s, unconditionally set the
status to `running`, and return the generated id.  The worker's update on a
bind failure (`status = 'error'`, `error` set to the message) lands before
or after the `running` assignment according to `sched`.  The function never
raises; it returns the id in every case. -/
def start_forward (reg : Forwards) (protocol : String) (local_port : Nat)
    (remote_host : String) (remote_port : Nat)
    (forward_id created_time : String) (sched : WorkerSchedule) :
    Forwards × String :=
  let forward_info : ForwardInfo :=
    { id := forward_id, protocol := pyUpper protocol, local_port := local_port,
      remote_host := remote_host, remote_port := remote_port,
      status := FStatus.starting, created_time := created_time, error := none }
  let afterWorkerEarly :=
    match sched.bind_failure with
    | some msg =>
        if sched.reported_early then
          { forward_info with status := FStatus.error, error := some msg }
        else forward_info
    | none => forward_info
  let afterMain := { afterWorkerEarly with status := FStatus.running }
  let finalInfo :=
    match sched.bind_failure with
    | some msg =>
        if sched.reported_early then afterMain
        else { afterMain with status := FStatus.error, error := some msg }
    | none => afterMain
  (dictSet reg forward_id finalInfo, forward_id)

/-- `PortForwarder.stop_forward` (t.py 690-718): an unknown id returns
`False` with the registry untouched; a known id has its handles closed, its
entry deleted from the registry, and returns `True`. -/
def stop_forward (reg : Forwards) (forward_id : String) : Bool × Forwards :=
  match reg.find? (fun e => e.1 == forward_id) with
  | none => (false, reg)
  | some _ => (true, reg.eraseP (fun e => e.1 == forward_id))

/-- The dictionary returned by `PortForwarder.get_stats` (t.py 720-727):
the four counters spread into the result, plus `uptime` and
`active_forwards`. -/
structure StatsView where
  total_connections : Int
  active_connections : Int
  bytes_transferred : Int
  start_time : Int
  uptime : Int
  active_forwards : Nat
deriving DecidableEq, Repr

/-- `PortForwarder.get_stats` (t.py 720-727): `uptime` is
`time.time() - stats['start_time']` and `active_forwards` is
`len(self.active_forwards)`. -/
def get_stats (stats : Stats) (active_forwards : Forwards) (now : Int) :
    StatsView :=
  { total_connections := stats.total_connections
    active_connections := stats.active_connections
    bytes_transferred := stats.bytes_transferred
    start_time := stats.start_time
    uptime := now - stats.start_time
    active_forwards := active_forwards.length }

/-- `PortForwarder.restore_forwards` (t.py 460-514): every persisted rule
whose local port the `check_port_availability` probe reports free is
re-armed with status `running` and `error` cleared; an occupied port marks
the rule `error` with a descriptive message, and the rule stays in the
registry.  `avail` is the outcome of the probe per port. -/
def restore_forwards (avail : Nat → Bool) (reg : Forwards) : Forwards :=
  reg.map (fun e =>
    let msg := "port " ++ toString e.2.local_port ++ " occupied"
    if avail e.2.local_port then
      (e.1, { e.2 with status := FStatus.running, error := none })
    else
      (e.1, { e.2 with status := FStatus.error, error := some msg }))

/-- `api_add_forward` (t.py 1848-1899) after authentication: validate the
fields, reject a `(protocol, local_port)` pair already present in the
registry, reject a port the OS-level probe reports busy (`os_port_busy`),
then call `start_forward` and report failure when the new rule's status
reads `error`. -/
def api_add_forward (reg : Forwards) (protocol : String)
    (local_port remote_port : Nat) (remote_host : String)
    (os_port_busy : Bool) (forward_id created_time : String)
    (sched : WorkerSchedule) : Forwards × Bool :=
  if protocol = "" ∨ local_port = 0 ∨ remote_host = "" ∨ remote_port = 0 then
    (reg, false)
  else if ¬ (protocol = "tcp" ∨ protocol = "udp") then (reg, false)
  else if ¬ (1 ≤ local_port ∧ local_port ≤ 65535
      ∧ 1 ≤ remote_port ∧ remote_port ≤ 65535) then (reg, false)
  else if reg.any (fun e =>
      e.2.local_port == local_port && e.2.protocol == pyUpper protocol) then
    (reg, false)
  else if os_port_busy then (reg, false)
  else
    let res := start_forward reg protocol local_port remote_host remote_port
      forward_id created_time sched
    let success :=
      match res.1.find? (fun e => e.1 == res.2) with
      | some e => if e.2.status = FStatus.error then false else true
      | none => true
    (res.1, success)

/-- The registry states reachable through the public control-plane
operations: starting from the empty registry, adding rules through the
add-forward endpoint (with freshly generated ids), stopping rules,
restarting the process (the persisted snapshot read back at startup carries
every status as `stopped`), and the startup reconciliation pass. -/
inductive ReachableRegistry : Forwards → Prop
  | init : ReachableRegistry []
  | add (reg : Forwards) (protocol : String) (local_port remote_port : Nat)
      (remote_host : String) (os_port_busy : Bool)
      (forward_id created_time : String) (sched : WorkerSchedule) :
      ReachableRegistry reg →
      forward_id ∉ reg.map Prod.fst →
      ReachableRegistry (api_add_forward reg protocol local_port remote_port
        remote_host os_port_busy forward_id created_time sched).1
  | stop (reg : Forwards) (forward_id : String) :
      ReachableRegistry reg →
      ReachableRegistry (stop_forward reg forward_id).2
  | restart (reg : Forwards) :
      ReachableRegistry reg →
      ReachableRegistry (serializable_forwards reg)
  | restore (reg : Forwards) (avail : Nat → Bool) :
      ReachableRegistry reg →
      ReachableRegistry (restore_forwards avail reg)

/-! ### C10 -/

/-- C10: `get_stats` reports the active-rule count as the total number of
entries in the rule registry regardless of status — rules in `error` state
(and any still `starting`) are counted exactly like `running` ones — and it
reports uptime as the current time minus the persisted `start_time`
counter. -/
theorem get_stats_counts_all_rules (stats : Stats) (reg : Forwards)
    (now : Int) :
    (get_stats stats reg now).active_forwards
      = reg.countP (fun e => e.2.status == FStatus.running)
        + reg.countP (fun e => ¬(e.2.status == FStatus.running))
    ∧ (get_stats stats reg now).active_forwards = reg.length
    ∧ (get_stats stats reg now).uptime = now - stats.start_time := by
  refine ⟨?_, rfl, rfl⟩
  exact List.length_eq_countP_add_countP (fun e => e.2.status == FStatus.running) reg

/-! ### C7 -/

theorem find?_eraseP_key_none (reg : Forwards) (fid : String)
    (h : (reg.map Prod.fst).Nodup) :
    (reg.eraseP (fun e => e.1 == fid)).find? (fun e => e.1 == fid) = none := by
  induction reg with
  | nil => rfl
  | cons a rest ih =>
      rw [List.map_cons, List.nodup_cons] at h
      by_cases ha : a.1 = fid
      · have he : List.eraseP (fun e => e.1 == fid) (a :: rest) = rest := by
          simp [List.eraseP_cons, ha]
        rw [he]
        apply List.find?_eq_none.mpr
        intro e he2 hbe
        have hefid : e.1 = fid := by simpa using hbe
        exact h.1 (ha ▸ hefid ▸ List.mem_map_of_mem Prod.fst he2)
      · have he : List.eraseP (fun e => e.1 == fid) (a :: rest)
            = a :: List.eraseP (fun e => e.1 == fid) rest := by
          simp [List.eraseP_cons, ha]
        rw [he, List.find?_cons_of_neg _ (by simpa using ha)]
        exact ih h.2

/-- C7: `stop_forward` on an id not present in the registry returns failure
and leaves the registry unchanged; on a present id (the registry's keys
being unique, as Python dictionary keys are) it returns success and removes
exactly that rule, and a second call with the same id returns failure
without crashing and without further change. -/
theorem stop_forward_spec (reg : Forwards) (fid : String)
    (hkeys : (reg.map Prod.fst).Nodup) :
    (reg.find? (fun e => e.1 == fid) = none → stop_forward reg fid = (false, reg))
    ∧ (∀ w, reg.find? (fun e => e.1 == fid) = some w →
        (stop_forward reg fid).1 = true
        ∧ (stop_forward reg fid).2.length + 1 = reg.length
        ∧ (stop_forward reg fid).2.find? (fun e => e.1 == fid) = none
        ∧ stop_forward (stop_forward reg fid).2 fid
            = (false, (stop_forward reg fid).2)) := by
  constructor
  · intro hnone
    unfold stop_forward
    rw [hnone]
  · intro w hw
    have h1 : stop_forward reg fid = (true, reg.eraseP (fun e => e.1 == fid)) := by
      unfold stop_forward
      rw [hw]
    have hmem : w ∈ reg := List.mem_of_find?_eq_some hw
    have hpw := List.find?_some hw
    have hlen : (reg.eraseP (fun e => e.1 == fid)).length + 1 = reg.length := by
      rw [List.length_eraseP_of_mem hmem hpw]
      have : 0 < reg.length := List.length_pos_of_mem hmem
      omega
    have hnone := find?_eraseP_key_none reg fid hkeys
    refine ⟨by rw [h1], by rw [h1]; exact hlen, by rw [h1]; exact hnone, ?_⟩
    rw [h1]
    unfold stop_forward
    rw [hnone]

/-- Witness for C7 at a concrete registry holding one rule keyed `"x"`:
stopping `"y"` fails and changes nothing; stopping `"x"` succeeds, and
stopping `"x"` again fails without change. -/
theorem stop_forward_spec_witness :
    stop_forward [("x", runningRule)] "y" = (false, [("x", runningRule)])
    ∧ (stop_forward [("x", runningRule)] "x").1 = true
    ∧ stop_forward (stop_forward [("x", runningRule)] "x").2 "x"
        = (false, (stop_forward [("x", runningRule)] "x").2) :=
  ⟨(stop_forward_spec [("x", runningRule)] "y" (by decide)).1 (by decide),
   ((stop_forward_spec [("x", runningRule)] "x" (by decide)).2
      ("x", runningRule) (by decide)).1,
   ((stop_forward_spec [("x", runningRule)] "x" (by decide)).2
      ("x", runningRule) (by decide)).2.2.2⟩

/-! ### C3 -/

theorem copy_data_total (stats : Stats) (chunks : List Nat) :
    (copy_data stats chunks).total_connections = stats.total_connections := by
  induction chunks generalizing stats with
  | nil => rfl
  | cons n rest ih =>
      unfold copy_data
      rw [List.foldl_cons]
      exact ih _

theorem copy_data_active (stats : Stats) (chunks : List Nat) :
    (copy_data stats chunks).active_connections = stats.active_connections := by
  induction chunks generalizing stats with
  | nil => rfl
  | cons n rest ih =>
      unfold copy_data
      rw [List.foldl_cons]
      exact ih _

/-- C3: when `asyncio.open_connection` to the remote fails,
`handle_tcp_client` leaves the counters with a NET CHANGE of −1 on
`active_connections` — the `finally` block decrements a counter that was
never incremented (from the zero counters, it ends at −1), contradicting
the claim of no net change; on the success path the behaviour is as
claimed: `total_connections` is incremented exactly once and
`active_connections` returns to its starting value after the single
decrement that follows the end of both copy directions. -/
theorem handle_tcp_client_counter_net_change :
    handle_tcp_client ⟨0, 0, 0, 0⟩ none
      = { total_connections := 0, active_connections := -1,
          bytes_transferred := 0, start_time := 0 }
    ∧ (∀ (stats : Stats) (c2r r2c : List Nat),
        (handle_tcp_client stats (some (c2r, r2c))).total_connections
          = stats.total_connections + 1
        ∧ (handle_tcp_client stats (some (c2r, r2c))).active_connections
          = stats.active_connections) := by
  refine ⟨rfl, ?_⟩
  intro stats c2r r2c
  constructor
  · show (copy_data (copy_data _ c2r) r2c).total_connections = _
    rw [copy_data_total, copy_data_total]
  · show (copy_data (copy_data _ c2r) r2c).active_connections - 1 = _
    rw [copy_data_active, copy_data_active]
    dsimp only
    omega

/-! ### C1 -/

/-- The record that `start_forward` leaves in the registry when a TCP bind
failure is reported during the 0.1 s sleep: status `running`, yet the error
message set. -/
def maskedBindFailureRule : ForwardInfo :=
  { id := "id1", protocol := "TCP", local_port := 8080,
    remote_host := "9.9.9.9", remote_port := 80,
    status := FStatus.running, created_time := "2024-01-01",
    error := some "bind failed" }

/-- C1: evaluating `start_forward` at the failing schedule — a TCP rule
whose worker reports the bind failure during the caller's 0.1 s sleep.
`start_forward` returns the id without raising and the rule is retained,
but its status reads `running` (the worker's `error` status was overwritten
by the unconditional `forward_info['status'] = 'running'` at t.py 671,
while the error message survives), so no rule in the registry is in `error`
state; only when the worker reports after that assignment does the rule end
in `error` as the claim requires. -/
theorem start_forward_masks_early_bind_failure :
    (start_forward [] "tcp" 8080 "9.9.9.9" 80 "id1" "2024-01-01"
        ⟨some "bind failed", true⟩).2 = "id1"
    ∧ (start_forward [] "tcp" 8080 "9.9.9.9" 80 "id1" "2024-01-01"
        ⟨some "bind failed", true⟩).1 = [("id1", maskedBindFailureRule)]
    ∧ maskedBindFailureRule.status = FStatus.running
    ∧ maskedBindFailureRule.error = some "bind failed"
    ∧ (start_forward [] "tcp" 8080 "9.9.9.9" 80 "id1" "2024-01-01"
        ⟨some "bind failed", false⟩).1
      = [("id1", { maskedBindFailureRule with status := FStatus.error })] := by
  refine ⟨rfl, ?_, rfl, rfl, ?_⟩ <;> decide

/-! ### C5 -/

/-- Two registry entries do not collide on the `(protocol, local_port)`
pair. -/
def distinctPair (a b : String × ForwardInfo) : Prop :=
  ¬(a.2.protocol = b.2.protocol ∧ a.2.local_port = b.2.local_port)

theorem find?_none_of_fresh (reg : Forwards) (fid : String)
    (h : fid ∉ reg.map Prod.fst) :
    reg.find? (fun e => e.1 == fid) = none := by
  apply List.find?_eq_none.mpr
  intro e he hbe
  have hefid : e.1 = fid := by simpa using hbe
  exact h (hefid ▸ List.mem_map_of_mem Prod.fst he)

/-- The rule record with which `start_forward`'s registry insertion ends,
up to the final status and error fields. -/
def startedRule (protocol : String) (lp : Nat) (rh : String) (rp : Nat)
    (fid ct : String) (st : FStatus) (err : Option String) : ForwardInfo :=
  { id := fid, protocol := pyUpper protocol, local_port := lp,
    remote_host := rh, remote_port := rp, status := st,
    created_time := ct, error := err }

theorem start_forward_fresh_append (reg : Forwards) (protocol : String)
    (lp : Nat) (rh : String) (rp : Nat) (fid ct : String)
    (sched : WorkerSchedule) (h : fid ∉ reg.map Prod.fst) :
    ∃ fi : ForwardInfo,
      (start_forward reg protocol lp rh rp fid ct sched).1 = reg ++ [(fid, fi)]
      ∧ fi.protocol = pyUpper protocol ∧ fi.local_port = lp := by
  obtain ⟨bf, re⟩ := sched
  unfold start_forward dictSet
  rw [find?_none_of_fresh reg fid h]
  cases bf with
  | none =>
      cases re <;>
        exact ⟨startedRule protocol lp rh rp fid ct FStatus.running none,
          by simp [startedRule], rfl, rfl⟩
  | some msg =>
      cases re
      · exact ⟨startedRule protocol lp rh rp fid ct FStatus.error (some msg),
          by simp [startedRule], rfl, rfl⟩
      · exact ⟨startedRule protocol lp rh rp fid ct FStatus.running (some msg),
          by simp [startedRule], rfl, rfl⟩

theorem pairwise_distinctPair_append (reg : Forwards) (fid : String)
    (fi : ForwardInfo) (h : reg.Pairwise distinctPair)
    (hno : reg.any (fun e =>
      e.2.local_port == fi.local_port && e.2.protocol == fi.protocol) = false) :
    (reg ++ [(fid, fi)]).Pairwise distinctPair := by
  rw [List.pairwise_append]
  refine ⟨h, List.pairwise_singleton _ _, ?_⟩
  intro a ha b hb
  have hb2 : b = (fid, fi) := by simpa using hb
  subst hb2
  have hae := (List.any_eq_false.mp hno) a ha
  simp only [Bool.and_eq_true, beq_iff_eq, not_and] at hae
  rintro ⟨hp, hl⟩
  exact hae hl hp

theorem pairwise_distinctPair_map (reg : Forwards)
    (f : String × ForwardInfo → String × ForwardInfo)
    (hf : ∀ e, (f e).2.protocol = e.2.protocol
      ∧ (f e).2.local_port = e.2.local_port)
    (h : reg.Pairwise distinctPair) : (reg.map f).Pairwise distinctPair := by
  rw [List.pairwise_map]
  refine h.imp ?_
  intro a b hab
  unfold distinctPair at hab ⊢
  intro hcon
  exact hab ⟨((hf a).1).symm.trans (hcon.1.trans (hf b).1),
    ((hf a).2).symm.trans (hcon.2.trans (hf b).2)⟩

theorem reachableRegistry_pairs_distinct (reg : Forwards)
    (h : ReachableRegistry reg) : reg.Pairwise distinctPair := by
  induction h with
  | init => exact List.Pairwise.nil
  | add reg protocol lp rp rh os fid ct sched hr hfresh ih =>
      unfold api_add_forward
      by_cases h1 : protocol = "" ∨ lp = 0 ∨ rh = "" ∨ rp = 0
      · rw [if_pos h1]; exact ih
      rw [if_neg h1]
      by_cases h2 : ¬(protocol = "tcp" ∨ protocol = "udp")
      · rw [if_pos h2]; exact ih
      rw [if_neg h2]
      by_cases h3 : ¬(1 ≤ lp ∧ lp ≤ 65535 ∧ 1 ≤ rp ∧ rp ≤ 65535)
      · rw [if_pos h3]; exact ih
      rw [if_neg h3]
      by_cases h4 : reg.any (fun e =>
          e.2.local_port == lp && e.2.protocol == pyUpper protocol) = true
      · rw [if_pos h4]; exact ih
      rw [if_neg h4]
      by_cases h5 : os = true
      · rw [if_pos h5]; exact ih
      rw [if_neg h5]
      dsimp only
      obtain ⟨fi, heq, hp, hl⟩ :=
        start_forward_fresh_append reg protocol lp rh rp fid ct sched hfresh
      rw [heq]
      apply pairwise_distinctPair_append reg fid fi ih
      rw [hp, hl]
      simpa using h4
  | stop reg fid hr ih =>
      have halt : (stop_forward reg fid).2 = reg
          ∨ (stop_forward reg fid).2 = reg.eraseP (fun e => e.1 == fid) := by
        unfold stop_forward
        cases reg.find? (fun e => e.1 == fid) <;> simp
      rcases halt with heq | heq <;> rw [heq]
      · exact ih
      · exact List.Pairwise.sublist (List.eraseP_sublist reg) ih
  | restart reg hr ih =>
      unfold serializable_forwards
      exact pairwise_distinctPair_map reg _ (fun e => ⟨rfl, rfl⟩) ih
  | restore reg avail hr ih =>
      unfold restore_forwards
      apply pairwise_distinctPair_map reg _ ?_ ih
      intro e
      dsimp only
      by_cases hav : avail e.2.local_port <;> simp [hav]

/-- C5: in every registry state reachable through the public control-plane
operations (add-forward endpoint with fresh ids, stop, restart
reconciliation), at most one rule with a given `(protocol, local_port)`
pair is in `starting` or `running` state at any time: the
`(protocol, local_port)` pairs of the `starting`/`running` rules are
pairwise non-colliding — and in fact so are the pairs of all rules,
whatever their status. -/
theorem reachable_at_most_one_rule_per_pair (reg : Forwards)
    (h : ReachableRegistry reg) :
    (reg.filter (fun e => e.2.status == FStatus.starting
        || e.2.status == FStatus.running)).Pairwise distinctPair
    ∧ reg.Pairwise distinctPair := by
  have hall := reachableRegistry_pairs_distinct reg h
  exact ⟨hall.filter _, hall⟩

/-- Witness for C5 at a concrete reachable state: the registry obtained by
adding a TCP rule on port 8080 to the empty registry. -/
theorem reachable_at_most_one_rule_per_pair_witness :
    ((api_add_forward [] "tcp" 8080 80 "9.9.9.9" false "id1" "t0"
        ⟨none, false⟩).1.filter (fun e => e.2.status == FStatus.starting
        || e.2.status == FStatus.running)).Pairwise distinctPair
    ∧ (api_add_forward [] "tcp" 8080 80 "9.9.9.9" false "id1" "t0"
        ⟨none, false⟩).1.Pairwise distinctPair :=
  reachable_at_most_one_rule_per_pair _
    (ReachableRegistry.add [] "tcp" 8080 80 "9.9.9.9" false "id1" "t0"
      ⟨none, false⟩ ReachableRegistry.init (by simp))
